import Mathlib

/-!
Shallow embedding of `src/scripts/boolean_search.py`.

Python strings are modelled as Lean `String` (a structure over `List Char`);
Python's substring test `pat in s`, `str.lower()` (charwise, ASCII — the
only case the repository's fixed pattern lists exercise) and slicing
`s[:n]` are modelled by the executable functions below.  JSON values that
the script reads with `dict.get(key, default)` are modelled as `Option`
fields resolved with `Option.getD`; a JSON `null` and a missing key both
normalize to the empty string, which is how every code path under
verification treats them.  The network is modelled as an oracle value of
type `HttpOutcome` handed to `run_query`: the Python `requests` library's
`raise_for_status` raises exactly for status codes in `[400, 600)`, and
any exception during response decoding (non-JSON body, non-dict entries,
a non-list `results` value) is the `Body.malformed` case, which the
script's blanket `except` clause turns into an empty result list.
-/

namespace BooleanSearch

/-- `leadsWith pat s` : does `s` start with `pat`?  (Charwise `==`.) -/
def leadsWith : List Char → List Char → Bool
  | [], _ => true
  | _ :: _, [] => false
  | a :: as, b :: bs => a == b && leadsWith as bs

/-- `hasSubstr s pat` models Python's `pat in s` (contiguous substring,
the empty pattern matching everywhere). -/
def hasSubstr : List Char → List Char → Bool
  | [], pat => pat.isEmpty
  | c :: rest, pat => leadsWith pat (c :: rest) || hasSubstr rest pat

/-- Substring test on `String`, i.e. Python's `pat in s`. -/
def strContains (s pat : String) : Bool :=
  hasSubstr s.data pat.data

/-- Python `str.lower()`, charwise via `Char.toLower`. -/
def lowerStr (s : String) : String :=
  ⟨s.data.map Char.toLower⟩

/-- Python slicing `s[:n]` on strings (by characters). -/
def strTake (s : String) (n : Nat) : String :=
  ⟨s.data.take n⟩

/-- `ATS_JOB_PATTERNS` from `boolean_search.py` (module constant). -/
def ATS_JOB_PATTERNS : List String :=
  ["greenhouse.io",
   "lever.co",
   "myworkdayjobs.com",
   "careers.icims.com",
   "/jobs/",
   "/job/",
   "/careers/",
   "/opening/",
   "/apply/",
   "/position/"]

/-- The normalized result dict produced by `run_query`:
keys `url`, `title`, `description`. -/
structure ResultItem where
  url : String
  title : String
  description : String
deriving DecidableEq

/-- One entry of the `results` array of a well-formed Tavily response;
each field is `none` when the key is absent or maps to JSON `null`. -/
structure RawResult where
  url : Option String
  title : Option String
  content : Option String
deriving DecidableEq

/-- The decoded body of an HTTP response: either everything the list
comprehension in `run_query` touches decodes cleanly, or some step of
decoding raises (non-JSON body, non-dict entry, iterable non-list
`results`), which the blanket `except Exception` handler absorbs. -/
inductive Body where
  | malformed
  | results (rs : List RawResult)
deriving DecidableEq

/-- The outcome of the single `requests.post` call in `run_query`:
either the request itself raises (timeout, connection error, ...) or a
response with a status code and a body comes back. -/
inductive HttpOutcome where
  | transportError (msg : String)
  | response (status : Nat) (body : Body)
deriving DecidableEq

/-- The JSON payload `run_query` posts to the Tavily endpoint. -/
structure TavilyPayload where
  api_key : String
  query : String
  search_depth : String
  max_results : Int
  days : Int
deriving DecidableEq

/-- The payload dict built at the top of `run_query`. -/
def buildPayload (query_string : String) (num_results : Int) (api_key : String)
    (days_back : Int) : TavilyPayload :=
  { api_key := api_key
    query := query_string
    search_depth := "basic"
    max_results := min num_results 20
    days := days_back }

/-- The dict comprehension body in `run_query`: url and title default to
the empty string, description is the content (empty for null or missing)
cut to 200 characters. -/
def normalizeResult (r : RawResult) : ResultItem :=
  { url := r.url.getD ""
    title := r.title.getD ""
    description := strTake (r.content.getD "") 200 }

/-- `run_query` from `boolean_search.py`, with the network call replaced
by the oracle `outcome`.  Returns the payload it posts together with the
result list it hands back.  `resp.raise_for_status()` raises `HTTPError`
exactly for status codes in `[400, 600)`; that exception and every other
exception is caught inside `run_query`, which then returns `[]`. -/
def run_query (query_string : String) (num_results : Int) (api_key : String)
    (days_back : Int) (outcome : HttpOutcome) : TavilyPayload × List ResultItem :=
  (buildPayload query_string num_results api_key days_back,
    match outcome with
    | .transportError _ => []
    | .response status body =>
        if 400 ≤ status ∧ status < 600 then []
        else
          match body with
          | .malformed => []
          | .results rs => rs.map normalizeResult)

/-- The local `bad_signals` list of `is_job_posting`. -/
def bad_signals : List String :=
  ["/blog/", "/news/", "/press/", "/about/", "/company/", "/search?"]

/-- The local `job_title_signals` list of `is_job_posting`. -/
def job_title_signals : List String :=
  ["manager", "director", "engineer", "analyst",
   "specialist", "lead", "associate", "coordinator"]

/-- `is_job_posting` from `boolean_search.py`.  The `for`-loop over
`ATS_JOB_PATTERNS` returning `True` on the first hit is `List.any`;
`item.get("url") or ""` is the (always present) `url` field here. -/
def is_job_posting (item : ResultItem) : Bool :=
  let url := lowerStr item.url
  let title := lowerStr item.title
  if ATS_JOB_PATTERNS.any (fun pattern => strContains url pattern) then
    true
  else if bad_signals.any (fun s => strContains url s) then
    false
  else
    job_title_signals.any (fun sig => strContains title sig)

/-- `filter_new_results` from `boolean_search.py`.  The Python seen-set is
modelled as a list whose membership (`List.contains`) is what the filter
consults. -/
def filter_new_results (results : List ResultItem) (seen_urls : List String) :
    List ResultItem :=
  results.filter (fun r => !(seen_urls.contains r.url))

/-- The five lines appended for one result inside `format_as_text_block`
(`enumerate(results, 1)` supplies `i`). -/
def resultBlock (i : Nat) (item : ResultItem) : List String :=
  ["--- Result " ++ (toString i ++ " ---"),
   "Title: " ++ item.title,
   "URL: " ++ item.url,
   "Snippet: " ++ item.description,
   "---"]

/-- The inner `for i, item in enumerate(results, 1)` loop. -/
def renderResults : List ResultItem → Nat → List String
  | [], _ => []
  | r :: rest, i => resultBlock i r ++ renderResults rest (i + 1)

/-- One iteration of the `for query_name, results in ...items()` loop:
nothing when the list is empty (`continue`), otherwise the `Query:` line,
the numbered blocks, and the trailing empty line. -/
def querySection (name : String) (results : List ResultItem) : List String :=
  if results.isEmpty then []
  else ("Query: \"" ++ (name ++ "\"")) :: (renderResults results 1 ++ [""])

/-- The `lines` list that `format_as_text_block` joins with newlines.
The Python dict `results_by_query` is an insertion-ordered association
list here. -/
def reportLines (results_by_query : List (String × List ResultItem))
    (run_date : String) : List String :=
  let headerLines : List String :=
    ["=== BOOLEAN SEARCH RESULTS - " ++ (run_date ++ " ==="),
     "Source: Direct ATS search via Tavily (Greenhouse, Lever, Workday, ICIMS)",
     ""]
  let total := (results_by_query.map (fun p => p.2.length)).sum
  if total = 0 then
    headerLines ++ ["No new job postings found via Boolean search today."]
  else
    headerLines ++ (results_by_query.map (fun p => querySection p.1 p.2)).flatten

/-- `format_as_text_block` from `boolean_search.py`: `"\n".join(lines)`. -/
def format_as_text_block (results_by_query : List (String × List ResultItem))
    (run_date : String) : String :=
  "\n".intercalate (reportLines results_by_query run_date)

/-- One entry of the config's `queries` array (the `enabled` default
`True` of `q.get("enabled", True)` is resolved at decoding). -/
structure ConfigQuery where
  name : String
  qstring : String
  enabled : Bool
deriving DecidableEq

/-- The decoded config file, with the `settings` defaults
(`results_per_query` 10, `delay` 2, `days_back` 7) already applied. -/
structure Config where
  results_per_query : Int
  delay_between_queries_seconds : Int
  days_back : Int
  queries : List ConfigQuery
deriving DecidableEq

/-- Python dict assignment `d[k] = v`: replace in place when the key
exists, append otherwise. -/
def dictInsert (d : List (String × List ResultItem)) (k : String)
    (v : List ResultItem) : List (String × List ResultItem) :=
  if (d.map Prod.fst).contains k then
    d.map (fun p => if p.1 == k then (p.1, v) else p)
  else
    d ++ [(k, v)]

/-- The per-query loop of `main`: classify, deduplicate against the
cumulative seen-set, add the new URLs to the seen-set, record the new
results under the query's name.  `pending` pairs each remaining query's
name with the result list its `run_query` call produced. -/
def mainLoop : List (String × List ResultItem) → List String →
    List (String × List ResultItem) → List (String × List ResultItem)
  | [], _, acc => acc
  | (name, raw) :: rest, seen, acc =>
      let job_results := raw.filter is_job_posting
      let new_results := filter_new_results job_results seen
      mainLoop rest (seen ++ new_results.map (fun r => r.url))
        (dictInsert acc name new_results)

/-- Observable outcome of one `main` run: the exit status, how many
Tavily requests were issued, whether the missing-credential setup
instructions were printed, and the report text (`none` when the run ends
before formatting). -/
structure MainResult where
  exitCode : Nat
  networkRequests : Nat
  printedSetupInstructions : Bool
  report : Option String
deriving DecidableEq

/-- `main` from `boolean_search.py` as a function of its environment:
`config` is `none` when opening the config file raises
`FileNotFoundError`; `apiKey` is the resolved `--api-key` /
`BOOLEAN_TAVILY_API_KEY` value (Python truthiness of a string is `≠ ""`);
`api i` is the HTTP outcome of the `i`-th query's request.  Every
terminating branch calls `sys.exit(0)`. -/
def main (config : Option Config) (apiKey : String) (dryRun : Bool)
    (history : List String) (api : Nat → HttpOutcome) (run_date : String) :
    MainResult :=
  match config with
  | none => ⟨0, 0, false, none⟩
  | some cfg =>
      let queries := cfg.queries.filter (fun q => q.enabled)
      if queries.isEmpty then ⟨0, 0, false, none⟩
      else if dryRun then ⟨0, 0, false, none⟩
      else if apiKey = "" then ⟨0, 0, true, none⟩
      else
        let responses := queries.enum.map (fun p =>
          (p.2.name,
           (run_query p.2.qstring cfg.results_per_query apiKey cfg.days_back
             (api p.1)).2))
        let results_by_query := mainLoop responses history []
        ⟨0, queries.length, false,
         some (format_as_text_block results_by_query run_date)⟩

/-- How many results with URL `u` the mapping `results_by_query` holds in
total (each one is rendered as one `URL:` line of the report). -/
def urlCount (results_by_query : List (String × List ResultItem)) (u : String) :
    Nat :=
  (results_by_query.map (fun p => (p.2.filter (fun r => r.url == u)).length)).sum

end BooleanSearch

/-!
General lemmas about the string model, the report renderer and the
orchestrator loop.  The claim theorems follow at the end of the file.
-/

namespace BooleanSearch

/-- Starting-with is preserved by a charwise map. -/
theorem leadsWith_map (f : Char → Char) :
    ∀ pat s : List Char, leadsWith pat s = true →
      leadsWith (pat.map f) (s.map f) = true := by
  intro pat
  induction pat with
  | nil => intro s _; rfl
  | cons a as ih =>
      intro s h
      cases s with
      | nil => simp [leadsWith] at h
      | cons b bs =>
          simp only [leadsWith, Bool.and_eq_true, beq_iff_eq] at h
          simp only [List.map, leadsWith, Bool.and_eq_true, beq_iff_eq]
          exact ⟨congrArg f h.1, ih bs h.2⟩

/-- Substring occurrence is preserved by a charwise map. -/
theorem hasSubstr_map (f : Char → Char) :
    ∀ s pat : List Char, hasSubstr s pat = true →
      hasSubstr (s.map f) (pat.map f) = true := by
  intro s
  induction s with
  | nil =>
      intro pat h
      simp only [hasSubstr, List.isEmpty_iff] at h
      subst h; rfl
  | cons c rest ih =>
      intro pat h
      simp only [hasSubstr, Bool.or_eq_true] at h ⊢
      cases h with
      | inl h => exact Or.inl (leadsWith_map f pat (c :: rest) h)
      | inr h => exact Or.inr (ih pat h)

/-- `Char.toLower` is idempotent (an ASCII uppercase letter maps into the
lowercase range, which `toLower` leaves alone). -/
theorem char_toLower_idem (c : Char) :
    Char.toLower (Char.toLower c) = Char.toLower c := by
  have hdef : ∀ a : Char,
      Char.toLower a =
        if a.toNat ≥ 65 ∧ a.toNat ≤ 90 then Char.ofNat (a.toNat + 32) else a :=
    fun a => rfl
  by_cases h : c.toNat ≥ 65 ∧ c.toNat ≤ 90
  · rw [hdef c, if_pos h]
    obtain ⟨h1, h2⟩ := h
    rw [hdef]
    generalize hn : c.toNat = n at h1 h2
    interval_cases n <;> decide
  · have e : Char.toLower c = c := by rw [hdef c, if_neg h]
    rw [e, e]

/-- Charwise lowering of a char list is idempotent. -/
theorem map_toLower_idem (l : List Char) :
    (l.map Char.toLower).map Char.toLower = l.map Char.toLower := by
  induction l with
  | nil => rfl
  | cons c rest ih => simp [List.map, ih, char_toLower_idem]

/-- Python lowercasing is idempotent. -/
theorem lowerStr_idem (s : String) : lowerStr (lowerStr s) = lowerStr s :=
  String.ext (map_toLower_idem s.data)

/-- Two strings with different first characters differ. -/
theorem ne_of_data_head {a b : String} (h : a.data.head? ≠ b.data.head?) :
    a ≠ b :=
  fun e => h (by rw [e])

/-- The first character of an append is that of its nonempty left part. -/
theorem data_head_append (p s : String) (h : p.data ≠ []) :
    (p ++ s).data.head? = p.data.head? := by
  rw [String.data_append]
  cases hp : p.data with
  | nil => exact absurd hp h
  | cons c rest => rfl

/-- Every rendered URL line starts with the character of its fixed label. -/
theorem urlLine_data_head (u : String) :
    ("URL: " ++ u).data.head? = some 'U' := by
  rw [data_head_append "URL: " u (by decide)]
  rfl

/-- A single result block holds the line `URL: u` exactly when its item's
URL is `u` (every other line of the block starts with a different
character). -/
theorem count_resultBlock (i : Nat) (r : ResultItem) (u : String) :
    (resultBlock i r).count ("URL: " ++ u) = if r.url = u then 1 else 0 := by
  have h1 : ("--- Result " ++ (toString i ++ " ---")) ≠ ("URL: " ++ u) :=
    ne_of_data_head (by
      rw [data_head_append _ _ (by decide), urlLine_data_head]; decide)
  have h2 : ("Title: " ++ r.title) ≠ ("URL: " ++ u) :=
    ne_of_data_head (by
      rw [data_head_append _ _ (by decide), urlLine_data_head]; decide)
  have h4 : ("Snippet: " ++ r.description) ≠ ("URL: " ++ u) :=
    ne_of_data_head (by
      rw [data_head_append _ _ (by decide), urlLine_data_head]; decide)
  have h5 : ("---" : String) ≠ ("URL: " ++ u) :=
    ne_of_data_head (by rw [urlLine_data_head]; decide)
  have h3 : (("URL: " ++ r.url) = ("URL: " ++ u)) ↔ r.url = u := by
    constructor
    · intro h
      have hd := congrArg String.data h
      rw [String.data_append, String.data_append] at hd
      exact String.ext (List.append_cancel_left hd)
    · intro h; rw [h]
  simp only [resultBlock, List.count_cons, List.count_nil, beq_iff_eq, h3]
  simp [h1, h2, h4, h5]

/-- The numbered blocks of a result list hold one `URL: u` line per item
with URL `u`. -/
theorem count_renderResults (results : List ResultItem) (i : Nat) (u : String) :
    (renderResults results i).count ("URL: " ++ u) =
      (results.filter (fun r => r.url == u)).length := by
  induction results generalizing i with
  | nil => rfl
  | cons r rest ih =>
      rw [renderResults, List.count_append, count_resultBlock, ih]
      by_cases h : r.url = u
      · simp [List.filter_cons, h, Nat.add_comm]
      · simp [List.filter_cons, h]

/-- A whole query section holds one `URL: u` line per item with URL `u`. -/
theorem count_querySection (name : String) (results : List ResultItem)
    (u : String) :
    (querySection name results).count ("URL: " ++ u) =
      (results.filter (fun r => r.url == u)).length := by
  unfold querySection
  by_cases h : results.isEmpty
  · rw [if_pos h]
    rw [List.isEmpty_iff] at h
    subst h
    rfl
  · rw [if_neg h]
    have hq : ("Query: \"" ++ (name ++ "\"")) ≠ ("URL: " ++ u) :=
      ne_of_data_head (by
        rw [data_head_append _ _ (by decide), urlLine_data_head]; decide)
    have he : ("" : String) ≠ ("URL: " ++ u) :=
      ne_of_data_head (by rw [urlLine_data_head]; decide)
    rw [List.count_cons, List.count_append, count_renderResults]
    simp [List.count_cons, hq, he]

/-- A mapping whose value lists are all empty holds no result at all. -/
theorem urlCount_eq_zero_of_total_zero
    (rbq : List (String × List ResultItem)) (u : String)
    (h : (rbq.map (fun p => p.2.length)).sum = 0) :
    urlCount rbq u = 0 := by
  induction rbq with
  | nil => rfl
  | cons p rest ih =>
      simp only [List.map_cons, List.sum_cons, Nat.add_eq_zero] at h
      have hp : p.2 = [] := List.eq_nil_of_length_eq_zero h.1
      simp only [urlCount, List.map_cons, List.sum_cons, hp, List.filter_nil,
        List.length_nil, Nat.zero_add]
      exact ih h.2

/-- The report holds one `URL: u` line per result with URL `u` in the
mapping it renders. -/
theorem count_reportLines (rbq : List (String × List ResultItem))
    (run_date u : String) :
    (reportLines rbq run_date).count ("URL: " ++ u) = urlCount rbq u := by
  have hh1 : ("=== BOOLEAN SEARCH RESULTS - " ++ (run_date ++ " ===")) ≠
      ("URL: " ++ u) :=
    ne_of_data_head (by
      rw [data_head_append _ _ (by decide), urlLine_data_head]; decide)
  have hh2 :
      ("Source: Direct ATS search via Tavily (Greenhouse, Lever, Workday, ICIMS)" :
        String) ≠ ("URL: " ++ u) :=
    ne_of_data_head (by rw [urlLine_data_head]; decide)
  have hh3 : ("" : String) ≠ ("URL: " ++ u) :=
    ne_of_data_head (by rw [urlLine_data_head]; decide)
  unfold reportLines
  by_cases h : (rbq.map (fun p => p.2.length)).sum = 0
  · rw [if_pos h, urlCount_eq_zero_of_total_zero rbq u h]
    have hh4 : ("No new job postings found via Boolean search today." : String) ≠
        ("URL: " ++ u) :=
      ne_of_data_head (by rw [urlLine_data_head]; decide)
    simp [List.count_cons, List.count_append, hh1, hh2, hh3, hh4]
  · rw [if_neg h]
    rw [List.count_append, List.count_flatten]
    have hz : List.count ("URL: " ++ u)
        ["=== BOOLEAN SEARCH RESULTS - " ++ (run_date ++ " ==="),
         "Source: Direct ATS search via Tavily (Greenhouse, Lever, Workday, ICIMS)",
         ""] = 0 := by
      simp [List.count_cons, hh1, hh2, hh3]
    rw [hz, Nat.zero_add]
    unfold urlCount
    rw [List.map_map]
    congr 1
    apply List.map_congr_left
    intro p _
    exact count_querySection p.1 p.2 u

/-- `List.contains` on the seen-set is plain membership. -/
theorem contains_iff_mem {l : List String} {a : String} :
    l.contains a = true ↔ a ∈ l := by
  simp [List.contains, List.elem_iff]

/-- Assigning a key that the mapping does not hold yet appends it. -/
theorem dictInsert_fresh (d : List (String × List ResultItem)) (k : String)
    (v : List ResultItem) (h : k ∉ d.map Prod.fst) :
    dictInsert d k v = d ++ [(k, v)] := by
  unfold dictInsert
  rw [if_neg]
  intro hc
  exact h (contains_iff_mem.mp hc)

/-- Appending one entry adds its URL tally to the mapping's. -/
theorem urlCount_append_single (d : List (String × List ResultItem))
    (k : String) (v : List ResultItem) (u : String) :
    urlCount (d ++ [(k, v)]) u =
      urlCount d u + (v.filter (fun r => r.url == u)).length := by
  unfold urlCount
  rw [List.map_append, List.sum_append]
  rfl

/-- A result surviving `filter_new_results` came from the input list and
has a URL outside the seen-set. -/
theorem mem_of_mem_filter_new {results : List ResultItem}
    {seen : List String} {r : ResultItem}
    (h : r ∈ filter_new_results results seen) :
    r ∈ results ∧ r.url ∉ seen := by
  unfold filter_new_results at h
  rw [List.mem_filter] at h
  refine ⟨h.1, fun hm => ?_⟩
  have hf := h.2
  rw [Bool.not_eq_true'] at hf
  have hc : seen.contains r.url = true := contains_iff_mem.mpr hm
  exact absurd (hf ▸ hc) Bool.false_ne_true

/-- Once `u` is in the seen-set, no later query of the run contributes a
result with URL `u` to the mapping. -/
theorem mainLoop_count_blocked (u : String) :
    ∀ (pending : List (String × List ResultItem)) (seen : List String)
      (acc : List (String × List ResultItem)),
      (∀ n ∈ pending.map Prod.fst, n ∉ acc.map Prod.fst) →
      (pending.map Prod.fst).Nodup →
      u ∈ seen →
      urlCount (mainLoop pending seen acc) u = urlCount acc u := by
  intro pending
  induction pending with
  | nil => intro seen acc _ _ _; rfl
  | cons p rest ih =>
      intro seen acc hfresh hnodup hu
      obtain ⟨name, raw⟩ := p
      rw [mainLoop]
      have hnews : ((filter_new_results (raw.filter is_job_posting) seen).filter
          (fun r => r.url == u)) = [] := by
        rw [List.filter_eq_nil_iff]
        intro r hr
        have hmem := mem_of_mem_filter_new hr
        simp only [beq_iff_eq]
        intro hru
        exact hmem.2 (hru ▸ hu)
      rw [List.map_cons, List.nodup_cons] at hnodup
      have hfr : name ∉ acc.map Prod.fst :=
        hfresh name (by simp)
      rw [dictInsert_fresh acc name _ hfr]
      rw [ih (seen ++ (filter_new_results (raw.filter is_job_posting) seen).map
            (fun r => r.url)) (acc ++ [(name, filter_new_results (raw.filter is_job_posting) seen)])
          ?hf hnodup.2 (List.mem_append_left _ hu)]
      · rw [urlCount_append_single, hnews]
        rfl
      · intro n hn
        rw [List.map_append, List.mem_append]
        rintro (hna | hns)
        · exact hfresh n (by simp [hn]) hna
        · simp at hns
          exact hnodup.1 (hns ▸ hn)

/-- When `u` is absent from the seen-set and some pending query holds a
job-posting result with URL `u` (at most once per query), exactly one
copy of `u` reaches the mapping: the first query holding it contributes
it, every later one is blocked by the updated seen-set. -/
theorem mainLoop_count_once (u : String) :
    ∀ (pending : List (String × List ResultItem)) (seen : List String)
      (acc : List (String × List ResultItem)),
      (∀ n ∈ pending.map Prod.fst, n ∉ acc.map Prod.fst) →
      (pending.map Prod.fst).Nodup →
      u ∉ seen →
      (∀ p ∈ pending, (p.2.filter (fun r => r.url == u)).length ≤ 1) →
      (∃ p ∈ pending, ∃ r ∈ p.2, r.url = u ∧ is_job_posting r = true) →
      urlCount (mainLoop pending seen acc) u = urlCount acc u + 1 := by
  intro pending
  induction pending with
  | nil =>
      intro seen acc _ _ _ _ hex
      obtain ⟨p, hp, _⟩ := hex
      exact absurd hp (List.not_mem_nil p)
  | cons q rest ih =>
      intro seen acc hfresh hnodup hu hdup hex
      obtain ⟨name, raw⟩ := q
      rw [mainLoop]
      rw [List.map_cons, List.nodup_cons] at hnodup
      have hfr : name ∉ acc.map Prod.fst := hfresh name (by simp)
      rw [dictInsert_fresh acc name _ hfr]
      have hfresh' : ∀ n ∈ rest.map Prod.fst,
          n ∉ (acc ++ [(name, filter_new_results (raw.filter is_job_posting) seen)]).map Prod.fst := by
        intro n hn
        rw [List.map_append, List.mem_append]
        rintro (hna | hns)
        · exact hfresh n (by simp [hn]) hna
        · simp at hns
          exact hnodup.1 (hns ▸ hn)
      by_cases hA : ∃ r ∈ raw, r.url = u ∧ is_job_posting r = true
      · obtain ⟨r, hr, hru, hrj⟩ := hA
        have hrjobs : r ∈ raw.filter is_job_posting :=
          List.mem_filter.mpr ⟨hr, hrj⟩
        have hrnews : r ∈ filter_new_results (raw.filter is_job_posting) seen := by
          unfold filter_new_results
          rw [List.mem_filter]
          refine ⟨hrjobs, ?_⟩
          rw [Bool.not_eq_eq_eq_not, Bool.not_true]
          by_contra hc
          rw [Bool.not_eq_false] at hc
          exact hu (hru ▸ contains_iff_mem.mp hc)
        have hge : 1 ≤ ((filter_new_results (raw.filter is_job_posting) seen).filter
            (fun r => r.url == u)).length := by
          have hmem : r ∈ (filter_new_results (raw.filter is_job_posting) seen).filter
              (fun r => r.url == u) :=
            List.mem_filter.mpr ⟨hrnews, by simp [hru]⟩
          exact List.length_pos.mpr (List.ne_nil_of_mem hmem)
        have hle : ((filter_new_results (raw.filter is_job_posting) seen).filter
            (fun r => r.url == u)).length ≤ 1 := by
          have hsub : List.Sublist
              ((filter_new_results (raw.filter is_job_posting) seen).filter
                (fun r => r.url == u))
              (raw.filter (fun r => r.url == u)) := by
            apply List.Sublist.filter
            exact (List.filter_sublist _).trans (List.filter_sublist raw)
          exact Nat.le_trans hsub.length_le (hdup (name, raw) (by simp))
        have heq : ((filter_new_results (raw.filter is_job_posting) seen).filter
            (fun r => r.url == u)).length = 1 := Nat.le_antisymm hle hge
        have hu' : u ∈ seen ++ (filter_new_results (raw.filter is_job_posting) seen).map
            (fun r => r.url) := by
          rw [List.mem_append]
          right
          exact List.mem_map.mpr ⟨r, hrnews, hru⟩
        rw [mainLoop_count_blocked u rest _ _ hfresh' hnodup.2 hu']
        rw [urlCount_append_single, heq]
      · have hnews : ((filter_new_results (raw.filter is_job_posting) seen).filter
            (fun r => r.url == u)) = [] := by
          rw [List.filter_eq_nil_iff]
          intro r hr
          simp only [beq_iff_eq]
          intro hru
          have hmem := mem_of_mem_filter_new hr
          have hrj := List.mem_filter.mp hmem.1
          exact hA ⟨r, hrj.1, hru, hrj.2⟩
        have hu' : u ∉ seen ++ (filter_new_results (raw.filter is_job_posting) seen).map
            (fun r => r.url) := by
          rw [List.mem_append]
          rintro (hs | hn)
          · exact hu hs
          · obtain ⟨r, hr, hru⟩ := List.mem_map.mp hn
            have hmem := mem_of_mem_filter_new hr
            have hrj := List.mem_filter.mp hmem.1
            exact hA ⟨r, hrj.1, hru, hrj.2⟩
        have hex' : ∃ p ∈ rest, ∃ r ∈ p.2, r.url = u ∧ is_job_posting r = true := by
          obtain ⟨p, hp, r, hr, hru, hrj⟩ := hex
          rcases List.mem_cons.mp hp with hph | hpr
          · exfalso
            apply hA
            refine ⟨r, ?_, hru, hrj⟩
            rw [hph] at hr
            exact hr
          · exact ⟨p, hpr, r, hr, hru, hrj⟩
        rw [ih _ _ hfresh' hnodup.2 hu'
            (fun p hp => hdup p (by simp [hp])) hex']
        rw [urlCount_append_single, hnews]
        rfl

/-- All-empty value lists make the total of the mapping zero. -/
theorem total_zero_of_all_empty (rbq : List (String × List ResultItem))
    (h : ∀ p ∈ rbq, p.2 = []) :
    (rbq.map (fun p => p.2.length)).sum = 0 := by
  induction rbq with
  | nil => rfl
  | cons p rest ih =>
      simp only [List.map_cons, List.sum_cons]
      rw [h p (by simp), ih (fun q hq => h q (by simp [hq]))]
      rfl

end BooleanSearch

/-!
Claim theorems.
-/

namespace BooleanSearch

/-- C1 (amended): for every query string, result count, API key and
lookback value, `run_query` returns the empty list when the request
raises a transport error, when the response status is a 4xx or 5xx error
(the statuses for which `raise_for_status` raises), and when the
response body is malformed; as a total Lean function it never raises.
The claim's original "non-2xx" condition is refuted by
`C1_non2xx_counterexample`: a 3xx status passes `raise_for_status`
unraised, so a well-formed body is returned as results. -/
theorem C1_run_query_error_empty (query_string api_key : String)
    (num_results days_back : Int) :
    (∀ msg, (run_query query_string num_results api_key days_back
        (.transportError msg)).2 = []) ∧
    (∀ status body, 400 ≤ status → status < 600 →
      (run_query query_string num_results api_key days_back
        (.response status body)).2 = []) ∧
    (∀ status, (run_query query_string num_results api_key days_back
        (.response status .malformed)).2 = []) := by
  refine ⟨fun msg => rfl, fun status body h1 h2 => ?_, fun status => ?_⟩
  · simp only [run_query]
    rw [if_pos ⟨h1, h2⟩]
  · simp only [run_query]
    by_cases h : 400 ≤ status ∧ status < 600
    · rw [if_pos h]
    · rw [if_neg h]

/-- C1 witness: a 503 response with a well-formed body, a transport
error, and a 200 response with a malformed body all yield `[]`. -/
theorem C1_run_query_error_empty_witness :
    (run_query "q" 5 "k" 7 (.response 503
      (.results [⟨some "u", none, none⟩]))).2 = [] ∧
    (run_query "q" 5 "k" 7 (.transportError "timeout")).2 = [] ∧
    (run_query "q" 5 "k" 7 (.response 200 .malformed)).2 = [] :=
  ⟨(C1_run_query_error_empty "q" "k" 5 7).2.1 503
      (.results [⟨some "u", none, none⟩]) (by decide) (by decide),
   (C1_run_query_error_empty "q" "k" 5 7).1 "timeout",
   (C1_run_query_error_empty "q" "k" 5 7).2.2 200⟩

/-- C1 counterexample: a response with the non-2xx status 300 and a
well-formed one-result body makes `run_query` return a nonempty list,
because `raise_for_status` raises only for statuses in `[400, 600)`. -/
theorem C1_non2xx_counterexample :
    (run_query "q" 5 "k" 7 (.response 300
      (.results [⟨some "u", some "t", some "c"⟩]))).2 ≠ [] := by
  decide

/-- C2 (amended): for every run date and every mapping whose value lists
are all empty, `format_as_text_block` returns the header line, the fixed
source line, a blank line and the fixed "no results" sentence, joined by
newlines — the "no results" sentence replaces only the per-query
sections, not the header.  The claim's original "and nothing else" is
refuted by `C2_counterexample`. -/
theorem C2_all_empty_format (rbq : List (String × List ResultItem))
    (run_date : String) (h : ∀ p ∈ rbq, p.2 = []) :
    format_as_text_block rbq run_date =
      "\n".intercalate
        ["=== BOOLEAN SEARCH RESULTS - " ++ (run_date ++ " ==="),
         "Source: Direct ATS search via Tavily (Greenhouse, Lever, Workday, ICIMS)",
         "",
         "No new job postings found via Boolean search today."] := by
  unfold format_as_text_block
  congr 1
  unfold reportLines
  rw [if_pos (total_zero_of_all_empty rbq h)]
  rfl

/-- C2 witness: the amended statement evaluated on a one-query mapping
with an empty result list. -/
theorem C2_all_empty_format_witness :
    format_as_text_block [("q", [])] "2024-01-01" =
      "\n".intercalate
        ["=== BOOLEAN SEARCH RESULTS - " ++ ("2024-01-01" ++ " ==="),
         "Source: Direct ATS search via Tavily (Greenhouse, Lever, Workday, ICIMS)",
         "",
         "No new job postings found via Boolean search today."] :=
  C2_all_empty_format [("q", [])] "2024-01-01" (by decide)

/-- C2 counterexample: with one query and an empty result list the output
is not exactly the "no results" sentence — the header and source lines
precede it. -/
theorem C2_counterexample :
    format_as_text_block [("q", [])] "2024-01-01" ≠
      "No new job postings found via Boolean search today." := by
  decide

/-- C3: for every result item whose URL contains the substring
`greenhouse.io`, `is_job_posting` returns `true`, regardless of the
item's title and description — the ATS-pattern check fires first and
lowercasing the URL preserves the all-lowercase pattern. -/
theorem C3_greenhouse_url_job_posting (item : ResultItem)
    (h : strContains item.url "greenhouse.io" = true) :
    is_job_posting item = true := by
  have hlow : strContains (lowerStr item.url) "greenhouse.io" = true := by
    unfold strContains at h
    unfold strContains lowerStr
    have hm := hasSubstr_map Char.toLower item.url.data ("greenhouse.io").data h
    have e : ("greenhouse.io").data.map Char.toLower = ("greenhouse.io").data := by
      decide
    rw [e] at hm
    exact hm
  have hany : ATS_JOB_PATTERNS.any
      (fun pattern => strContains (lowerStr item.url) pattern) = true := by
    rw [List.any_eq_true]
    exact ⟨"greenhouse.io", by simp [ATS_JOB_PATTERNS], hlow⟩
  simp only [is_job_posting, hany, if_true]

/-- C3 witness: a greenhouse URL with a bad-signal path and a bad-signal
title is still classified as a job posting. -/
theorem C3_greenhouse_url_job_posting_witness :
    strContains "https://boards.greenhouse.io/x/blog/" "greenhouse.io" = true ∧
    is_job_posting ⟨"https://boards.greenhouse.io/x/blog/", "Our Company Blog",
      ""⟩ = true :=
  ⟨by decide, C3_greenhouse_url_job_posting ⟨"https://boards.greenhouse.io/x/blog/",
    "Our Company Blog", ""⟩ (by decide)⟩

/-- C4: for every result item whose URL (lowercased, the form the
classifier matches patterns against) contains `/blog/` and contains none
of the ATS patterns, `is_job_posting` returns `false`, regardless of the
item's title — the bad-signal check precedes the title-keyword check. -/
theorem C4_blog_url_not_job_posting (item : ResultItem)
    (hblog : strContains (lowerStr item.url) "/blog/" = true)
    (hats : ∀ p ∈ ATS_JOB_PATTERNS,
      strContains (lowerStr item.url) p = false) :
    is_job_posting item = false := by
  have hany : ATS_JOB_PATTERNS.any
      (fun pattern => strContains (lowerStr item.url) pattern) = false := by
    rw [List.any_eq_false]
    intro p hp
    rw [hats p hp]
    decide
  have hbad : bad_signals.any (fun s => strContains (lowerStr item.url) s) = true := by
    rw [List.any_eq_true]
    exact ⟨"/blog/", by simp [bad_signals], hblog⟩
  simp only [is_job_posting, hany, hbad, Bool.false_eq_true, if_false, if_true]

/-- C4 witness: a `/blog/` URL without ATS patterns is rejected even with
the job-title keyword "engineer" in the title. -/
theorem C4_blog_url_not_job_posting_witness :
    is_job_posting ⟨"https://acme.com/blog/post", "Senior Engineer", ""⟩ =
      false :=
  C4_blog_url_not_job_posting ⟨"https://acme.com/blog/post", "Senior Engineer", ""⟩
    (by decide) (by decide)

/-- C5: every result returned by `filter_new_results` has a URL outside
the input seen-set, and the output is a sublist of the input results —
the function is a pure filter; in this embedding it takes the seen-set
as a value and returns only a list, so it cannot mutate the set. -/
theorem C5_filter_new_results_disjoint (results : List ResultItem)
    (seen : List String) :
    (∀ r ∈ filter_new_results results seen, r.url ∉ seen) ∧
    List.Sublist (filter_new_results results seen) results :=
  ⟨fun _ hr => (mem_of_mem_filter_new hr).2, List.filter_sublist results⟩

/-- C5 witness: on a concrete two-result list with one URL already seen,
the surviving result's URL is outside the seen-set. -/
theorem C5_filter_new_results_disjoint_witness :
    (ResultItem.mk "u2" "t" "").url ∉ (["u1"] : List String) :=
  (C5_filter_new_results_disjoint [⟨"u1", "a", ""⟩, ⟨"u2", "t", ""⟩] ["u1"]).1
    ⟨"u2", "t", ""⟩ (by decide)

/-- C6 (amended): when the queries of a run have pairwise distinct names
(the data model takes a query's name as its identity), two distinct
queries both return a job-posting result with URL `u`, `u` is absent
from the loaded history, and no single query's result list carries `u`
more than once, the report holds the line `URL: u` exactly once.  The
last condition is forced by `C6_counterexample`: the orchestrator
deduplicates across queries, not within one query's result list. -/
theorem C6_url_reported_once (pending : List (String × List ResultItem))
    (history : List String) (run_date u : String) (i j : Nat)
    (hnodup : (pending.map Prod.fst).Nodup)
    (hi : i < pending.length) (hj : j < pending.length) (hij : i ≠ j)
    (hqi : ∃ r ∈ (pending.get ⟨i, hi⟩).2, r.url = u ∧ is_job_posting r = true)
    (hqj : ∃ r ∈ (pending.get ⟨j, hj⟩).2, r.url = u ∧ is_job_posting r = true)
    (hseen : u ∉ history)
    (hdup : ∀ p ∈ pending, (p.2.filter (fun r => r.url == u)).length ≤ 1) :
    (reportLines (mainLoop pending history []) run_date).count
      ("URL: " ++ u) = 1 := by
  rw [count_reportLines]
  have hex : ∃ p ∈ pending, ∃ r ∈ p.2, r.url = u ∧ is_job_posting r = true :=
    ⟨pending.get ⟨i, hi⟩, List.get_mem pending i hi, hqi⟩
  rw [mainLoop_count_once u pending history []
    (by intro n hn; simp) hnodup hseen hdup hex]
  rfl

/-- C6 witness: two queries (one result each) returning the same job URL
with empty history produce a report holding that URL line once. -/
theorem C6_url_reported_once_witness :
    (reportLines (mainLoop
        [("A", [⟨"greenhouse.io/1", "x", ""⟩]),
         ("B", [⟨"greenhouse.io/1", "x", ""⟩])] [] []) "d").count
      ("URL: " ++ "greenhouse.io/1") = 1 :=
  C6_url_reported_once [("A", [⟨"greenhouse.io/1", "x", ""⟩]),
      ("B", [⟨"greenhouse.io/1", "x", ""⟩])] [] "d" "greenhouse.io/1"
    0 1 (by decide) (by decide) (by decide) (by decide)
    (by decide) (by decide) (by decide) (by decide)

/-- C6 counterexample: the claim's hypotheses hold — queries `A` and `B`
are distinct, both return a result with the job-posting URL
`greenhouse.io/1`, and the history is empty — yet the report holds the
URL line twice, because query `A` returns the URL twice in its own
result list and the orchestrator only deduplicates across queries. -/
theorem C6_counterexample :
    is_job_posting ⟨"greenhouse.io/1", "x", ""⟩ = true ∧
    (reportLines (mainLoop
        [("A", [⟨"greenhouse.io/1", "x", ""⟩, ⟨"greenhouse.io/1", "x", ""⟩]),
         ("B", [⟨"greenhouse.io/1", "x", ""⟩])] [] []) "d").count
      ("URL: " ++ "greenhouse.io/1") = 2 := by
  constructor
  · decide
  · decide

/-- C7: for every requested result count the payload built by `run_query`
carries `max_results = min n 20`; in particular a requested count of 25
is sent as 20. -/
theorem C7_max_results_capped (query_string api_key : String)
    (num_results days_back : Int) (outcome : HttpOutcome) :
    (run_query query_string num_results api_key days_back
        outcome).1.max_results = min num_results 20 ∧
    (run_query query_string 25 api_key days_back outcome).1.max_results = 20 :=
  ⟨rfl, rfl⟩

/-- C8: with an existing config holding at least one enabled query,
dry-run off and an empty resolved API key, `main` prints the setup
instructions, issues zero network requests and exits with status 0. -/
theorem C8_missing_key_no_network (cfg : Config) (history : List String)
    (api : Nat → HttpOutcome) (run_date : String)
    (hq : (cfg.queries.filter (fun q => q.enabled)).isEmpty = false) :
    main (some cfg) "" false history api run_date = ⟨0, 0, true, none⟩ := by
  simp only [main, hq, Bool.false_eq_true, if_false, if_pos rfl]
  rw [if_pos trivial]

/-- C8 witness: a concrete config with one enabled query and no API key
terminates with the setup-instruction outcome. -/
theorem C8_missing_key_no_network_witness :
    main (some ⟨10, 2, 7, [⟨"roles", "engineer OR manager", true⟩]⟩) "" false
      [] (fun _ => .transportError "unused") "2024-01-01" =
      ⟨0, 0, true, none⟩ :=
  C8_missing_key_no_network ⟨10, 2, 7, [⟨"roles", "engineer OR manager", true⟩]⟩
    [] (fun _ => .transportError "unused") "2024-01-01" (by decide)

/-- C9: `main` exits with status 0 on every input — missing config,
missing credential, no enabled queries, dry-run, and any combination of
per-query API outcomes included; every terminating branch of the source
calls `sys.exit(0)`. -/
theorem C9_always_exit_zero (config : Option Config) (apiKey : String)
    (dryRun : Bool) (history : List String) (api : Nat → HttpOutcome)
    (run_date : String) :
    (main config apiKey dryRun history api run_date).exitCode = 0 := by
  cases config with
  | none => rfl
  | some cfg =>
      simp only [main]
      split
      · rfl
      · split
        · rfl
        · split
          · rfl
          · rfl

/-- C10: `is_job_posting` is insensitive to the case of the input URL and
title: lowercasing them before the call does not change the verdict,
because the classifier lowercases both itself and lowering is
idempotent. -/
theorem C10_classifier_case_insensitive (item : ResultItem) :
    is_job_posting ⟨lowerStr item.url, lowerStr item.title, item.description⟩ =
      is_job_posting item := by
  simp only [is_job_posting, lowerStr_idem]

end BooleanSearch
